import Mathlib

/-!
Shallow embedding of the prefetcharr decision engine and its supporting
algorithms (seen-cache deduplication, episode windowing, bounded retry,
Sonarr client operations), translated from the Rust sources under `src/`.
Time is modelled in whole seconds as `Nat`; remote interactions are
modelled by an explicit environment record and a trace of issued calls.
-/

set_option autoImplicit false

namespace Prefetcharr

/-- `media_server::Series` (src/media_server.rs). -/
inductive Series where
  | Title (t : String)
  | Tvdb (i : Int)
deriving DecidableEq, Repr

/-- `media_server::User` (src/media_server.rs). -/
structure User where
  name : String
  id : String
deriving DecidableEq, Repr

/-- `media_server::NowPlaying` (src/media_server.rs). -/
structure NowPlaying where
  series : Series
  episode : Int
  season : Int
  user : User
  library : Option String
deriving DecidableEq, Repr

/-! ## Seen cache (src/util/once.rs) -/

/-- `RETAIN_DURATION` in seconds: 7 days. -/
def RETAIN_DURATION : Nat := 60 * 60 * 24 * 7

/-- `util::once::Entry`: a dedup key `(series, season)` plus the time it was
last written.  Equality and hashing in the Rust code compare only the
`(series, season)` pair, which we reflect by treating that pair as the key. -/
structure Entry where
  series : Series
  season : Int
  touched : Nat
deriving DecidableEq, Repr

/-- Whether an entry carries the dedup key `(series, season)`. -/
def Entry.matches (e : Entry) (series : Series) (season : Int) : Bool :=
  e.series == series && e.season == season

/-- `Seen::prune`: drop entries older than the retention window.
`Instant::saturating_duration_since` is `Nat` subtraction. -/
def prune (now : Nat) (s : List Entry) : List Entry :=
  s.filter (fun e => now - e.touched ≤ RETAIN_DURATION)

/-- `Seen::once(series, season)`: prune, then `HashSet::replace` a fresh
entry (touched at `now`).  Returns whether no equal entry was present,
together with the new cache contents.  `replace` always stores the new
entry, so the surviving entry for the key is touched at `now`. -/
def seenOnce (now : Nat) (series : Series) (season : Int) (s : List Entry) :
    Bool × List Entry :=
  let pruned := prune now s
  let isNew := pruned.all (fun e => !(e.matches series season))
  (isNew, ⟨series, season, now⟩ :: pruned.filter (fun e => !(e.matches series season)))

/-- The Actor's dedup gate keys an event by its `(series, season)` pair
(cf. `Actor::prefetch` and the `From<&NowPlaying> for Entry` conversion). -/
def seenOnceEvent (now : Nat) (np : NowPlaying) (s : List Entry) : Bool × List Entry :=
  seenOnce now np.series np.season s

/-! ## Bounded retry with backoff (src/util.rs) -/

/-- `2u64.saturating_pow(u32::try_from(i).unwrap_or(u32::MAX))`. -/
def sleepSecs (i : Nat) : Nat :=
  min (2 ^ (min i (2 ^ 32 - 1))) (2 ^ 64 - 1)

/-- Result of running `retry`: the outcome, the number of attempts made,
and the list of sleep durations (in time units) in order. -/
structure RetryRun (E T : Type) where
  result : Except E T
  attempts : Nat
  sleeps : List Nat
deriving Repr

/-- The retry loop after a first failure: `fuel` further iterations remain,
the next attempt uses index `i`, `e` is the last error.  Before each
attempt the loop sleeps `sleepSecs i`. -/
def retryAfterErr {E T : Type} (f : Nat → Except E T) : Nat → Nat → E → RetryRun E T
  | _, 0, e => ⟨Except.error e, 0, []⟩
  | i, fuel + 1, _ =>
    match f i with
    | Except.ok t => ⟨Except.ok t, 1, [sleepSecs i]⟩
    | Except.error e =>
      let r := retryAfterErr f (i + 1) fuel e
      ⟨r.result, r.attempts + 1, sleepSecs i :: r.sleeps⟩

/-- `util::retry(retries, f)`: attempt indices run `0..=retries`; the first
attempt is not preceded by a sleep; the first success returns at once;
after exhaustion the last error is returned. -/
def retry {E T : Type} (retries : Nat) (f : Nat → Except E T) : RetryRun E T :=
  match f 0 with
  | Except.ok t => ⟨Except.ok t, 1, []⟩
  | Except.error e =>
    let r := retryAfterErr f 1 retries e
    ⟨r.result, r.attempts + 1, r.sleeps⟩

/-! ## Sonarr data model (src/sonarr.rs) -/

/-- `sonarr::Tag`. -/
inductive Tag where
  | Label (s : String)
  | Id (i : Int)
deriving DecidableEq, Repr

/-- `sonarr::SeasonStatisticsResource`. -/
structure SeasonStatisticsResource where
  sizeOnDisk : Int
  episodeCount : Int
  episodeFileCount : Int
  totalEpisodeCount : Int
deriving DecidableEq, Repr

/-- `sonarr::SeasonResource`. -/
structure SeasonResource where
  seasonNumber : Int
  monitored : Bool
  statistics : Option SeasonStatisticsResource
deriving DecidableEq, Repr

/-- `sonarr::NewItemMonitorTypes`. -/
inductive NewItemMonitorTypes where
  | All
  | None
deriving DecidableEq, Repr

/-- `sonarr::SeriesResource`. -/
structure SeriesResource where
  id : Int
  title : Option String
  tvdbId : Int
  monitored : Bool
  monitorNewItems : Option NewItemMonitorTypes
  seasons : List SeasonResource
  tags : Option (List Int)
deriving DecidableEq, Repr

/-- `sonarr::EpisodeResource`. -/
structure EpisodeResource where
  id : Int
  seasonNumber : Int
  episodeNumber : Int
  hasFile : Bool
  monitored : Bool
deriving DecidableEq, Repr

/-- `sonarr::TagResource`. -/
structure TagResource where
  id : Int
  label : Option String
deriving DecidableEq, Repr

/-! ## Episode window (src/sonarr.rs, `episode_window`) -/

/-- `i32::saturating_sub` over the mathematical integers. -/
def satSub32 (a b : Int) : Int :=
  max (-(2 ^ 31)) (min (a - b) (2 ^ 31 - 1))

/-- Strict lexicographic order on the sort key `(season_number, episode_number)`. -/
def keyLt (a b : EpisodeResource) : Bool :=
  a.seasonNumber < b.seasonNumber ||
    (a.seasonNumber == b.seasonNumber && a.episodeNumber < b.episodeNumber)

/-- Stable insertion: the new element is placed before every element that is
not strictly smaller, so that `sortEpisodes` agrees with Rust's stable
`sort_by_key`. -/
def insertEp (e : EpisodeResource) : List EpisodeResource → List EpisodeResource
  | [] => [e]
  | x :: xs => if keyLt x e then x :: insertEp e xs else e :: x :: xs

/-- Stable sort by `(season_number, episode_number)`. -/
def sortEpisodes (es : List EpisodeResource) : List EpisodeResource :=
  es.foldr insertEp []

/-- One step of the `scan` in `episode_window` is kept when the delta from
the previous position is a next episode, a season rollover to episode 1,
or an exact duplicate. -/
def stepOK (prevS prevEp : Int) (ep : EpisodeResource) : Bool :=
  let seasonDelta := satSub32 ep.seasonNumber prevS
  let episodeDelta := satSub32 ep.episodeNumber prevEp
  (seasonDelta == 1 && ep.episodeNumber == 1) ||
    (seasonDelta == 0 && episodeDelta == 1) ||
    (seasonDelta == 0 && episodeDelta == 0)

/-- The `scan` of `episode_window`: walk forward from the previous position,
keeping episodes while the delta is allowed and stopping at the first gap. -/
def windowWalk (prevS prevEp : Int) : List EpisodeResource → List EpisodeResource
  | [] => []
  | ep :: rest =>
    if stepOK prevS prevEp ep then
      ep :: windowWalk ep.seasonNumber ep.episodeNumber rest
    else
      []

/-- `sonarr::episode_window`: stable-sort by `(season, episode)`, drop up to
and including the entry matching the start position (empty when absent),
walk while deltas are contiguous, and keep at most `num` results. -/
def episode_window (seasonStart episodeStart : Int) (num : Nat)
    (episodes : List EpisodeResource) : List EpisodeResource :=
  let sorted := sortEpisodes episodes
  let after :=
    (sorted.dropWhile fun ep =>
      !(ep.seasonNumber == seasonStart && ep.episodeNumber == episodeStart)).drop 1
  (windowWalk seasonStart episodeStart after).take num

/-! ## PVR interactions as a trace -/

/-- One HTTP interaction with Sonarr, as issued by the client. -/
inductive PvrCall where
  | listSeries
  | getTags
  | getEpisodes (seriesId : Int)
  | putSeries (s : SeriesResource)
  | monitorEpisodes (ids : List Int)
  | episodeSearch (ids : List Int)
  | seasonSearch (seriesId : Int) (seasonNum : Int)
deriving DecidableEq, Repr

/-- The remote state visible to one decision cycle: what the `series`,
`episode` and `tag` GET endpoints answer, and whether the `SeasonSearch`
command POST for a given season number fails. -/
structure Env where
  seriesList : List SeriesResource
  episodesResp : List EpisodeResource
  tags : List TagResource
  searchFails : Int → Bool

/-- Actor configuration (`Actor::new` arguments). -/
structure Config where
  prefetchNum : Nat
  requestSeasons : Bool

/-- Mutable actor state: the seen cache and the exclude tag (resolved in
place). -/
structure ActorState where
  seen : List Entry
  excludeTag : Option Tag

/-! ## Sonarr client operations (src/sonarr.rs) -/

/-- The match in `Actor::find_series`. -/
def seriesMatches (q : Series) (s : SeriesResource) : Bool :=
  match q with
  | Series.Title t => s.title == some t
  | Series.Tvdb i => s.tvdbId == i

/-- `Client::resolve_tag`: first tag whose label equals the query. -/
def resolve_tag (tags : List TagResource) (label : String) : Option Int :=
  (tags.find? (fun t => t.label == some label)).map (fun t => t.id)

/-- `Client::update_tag`: a `Label` is replaced by its resolved `Id` when
resolution succeeds, otherwise kept; an `Id` is left untouched. -/
def update_tag (tags : List TagResource) (tag : Tag) : Tag :=
  match tag with
  | Tag.Label l =>
    match resolve_tag tags l with
    | some i => Tag.Id i
    | none => Tag.Label l
  | Tag.Id i => Tag.Id i

/-- `SeriesResource::is_tagged_with`. -/
def is_tagged_with (s : SeriesResource) (tag : Tag) : Option Bool :=
  match tag with
  | Tag.Label _ => none
  | Tag.Id i => s.tags.map (fun ts => ts.contains i)

/-- `SeriesResource::season_mut` followed by setting `monitored = true`:
the first season with the given number is marked; the returned flag says
whether a season was found and was previously unmonitored. -/
def setSeasonMonitored : List SeasonResource → Int → List SeasonResource × Bool
  | [], _ => ([], false)
  | s :: rest, n =>
    if s.seasonNumber == n then
      ({ s with monitored := true } :: rest, !s.monitored)
    else
      let r := setSeasonMonitored rest n
      (s :: r.1, r.2)

/-- `SeriesResource::monitor_seasons`. -/
def monitor_seasons (series : SeriesResource) (nums : List Int) :
    SeriesResource × Bool :=
  nums.foldl
    (fun acc n =>
      let r := setSeasonMonitored acc.1.seasons n
      ({ acc.1 with seasons := r.1 }, acc.2 || r.2))
    (series, false)

/-- `series.seasons.last_mut()` with `monitored = true` (the shortfall path
of `Actor::prefetch`). -/
def monitorLastSeason : List SeasonResource → List SeasonResource
  | [] => []
  | s :: rest =>
    if rest.isEmpty then [{ s with monitored := true }]
    else s :: monitorLastSeason rest

/-- `HashSet` collection followed by `sort_unstable`: the sorted list of
distinct values. -/
def insertSortedUnique (n : Int) : List Int → List Int
  | [] => [n]
  | x :: xs =>
    if n < x then n :: x :: xs
    else if n == x then x :: xs
    else x :: insertSortedUnique n xs

/-- Distinct season numbers in ascending order. -/
def distinctSorted (l : List Int) : List Int :=
  l.foldl (fun acc n => insertSortedUnique n acc) []

/-- `Client::search_season(series, season_num)`: when the season exists and
is already monitored, fetch the series' episodes and monitor the season's
ones (if any); when the season or the series is unmonitored, put the
series with both flags set; finally always POST the `SeasonSearch`
command.  Returns the trace of calls and whether the whole operation
succeeded (the command POST may fail per `env.searchFails`; a missing
season fails before any call). -/
def search_season (env : Env) (series : SeriesResource) (seasonNum : Int) :
    List PvrCall × Bool :=
  match series.seasons.find? (fun s => s.seasonNumber == seasonNum) with
  | none => ([], false)
  | some season =>
    let fetchTrace :=
      if season.monitored then
        let seasonEpisodes := env.episodesResp.filter (fun e => e.seasonNumber == seasonNum)
        PvrCall.getEpisodes series.id ::
          (if seasonEpisodes.isEmpty then []
           else [PvrCall.monitorEpisodes (seasonEpisodes.map (fun e => e.id))])
      else []
    let putTrace :=
      if !season.monitored || !series.monitored then
        [PvrCall.putSeries
          { series with monitored := true,
                        seasons := (setSeasonMonitored series.seasons seasonNum).1 }]
      else []
    (fetchTrace ++ putTrace ++ [PvrCall.seasonSearch series.id seasonNum],
      !env.searchFails seasonNum)

/-- `Client::episodes`: season 0 returns empty without touching the remote;
otherwise fetch all episodes of the series and apply the episode window. -/
def episodesClient (env : Env) (series : SeriesResource)
    (seasonStart episodeStart : Int) (num : Nat) :
    List PvrCall × List EpisodeResource :=
  if seasonStart == 0 then ([], [])
  else
    ([PvrCall.getEpisodes series.id],
      episode_window seasonStart episodeStart num env.episodesResp)

/-! ## Decision engine (src/process.rs, `Actor::prefetch`) -/

/-- The trace of the exclusion-tag handling: `update_tag` GETs the tag list
only when the tag is still a label. -/
def tagFetchTrace : Tag → List PvrCall
  | Tag.Label _ => [PvrCall.getTags]
  | Tag.Id _ => []

/-- The monitoring baseline of `Actor::prefetch`: the series is marked
monitored; when fewer episodes than requested were returned (`shortfall`),
the last known season is additionally marked monitored and
`monitor_new_items` is set to `All`. -/
def baselineSeries (series : SeriesResource) (shortfall : Bool) : SeriesResource :=
  if shortfall then
    { series with monitored := true,
                  seasons := monitorLastSeason series.seasons,
                  monitorNewItems := some NewItemMonitorTypes.All }
  else { series with monitored := true }

/-- The calls `Actor::prefetch` issues after the series listing succeeded
and `series` was found: exclusion gate, episode-window fetch, monitoring
baseline, then the season- or episode-mode branch. -/
def prefetchBody (cfg : Config) (env : Env) (series : SeriesResource)
    (excludeTag : Option Tag) (np : NowPlaying) : List PvrCall :=
  let tagTrace := (excludeTag.map tagFetchTrace).getD []
  let newTag := excludeTag.map (update_tag env.tags)
  let excluded :=
    match newTag with
    | some tg => is_tagged_with series tg == some true
    | none => false
  if excluded then tagTrace
  else
    let fetch := episodesClient env series np.season np.episode cfg.prefetchNum
    let episodes := fetch.2
    let shortfall : Bool := decide (episodes.length < cfg.prefetchNum)
    let series2 := baselineSeries series shortfall
    let modified1 := !series.monitored || shortfall
    let missing := episodes.filter (fun e => !e.hasFile)
    if cfg.requestSeasons then
      let seasonNumbers := distinctSorted (missing.map (fun e => e.seasonNumber))
      let ms := monitor_seasons series2 seasonNumbers
      let series3 := ms.1
      let modified2 := modified1 || ms.2
      let putTrace := if modified2 then [PvrCall.putSeries series3] else []
      let searchTrace :=
        (seasonNumbers.map (fun sn => (search_season env series3 sn).1)).flatten
      tagTrace ++ fetch.1 ++ putTrace ++ searchTrace
    else
      let putTrace := if modified1 then [PvrCall.putSeries series2] else []
      let ids := missing.map (fun e => e.id)
      tagTrace ++ fetch.1 ++ putTrace ++
        [PvrCall.monitorEpisodes ids, PvrCall.episodeSearch ids]

/-- `Actor::prefetch` for one event: dedup gate, series lookup (one series
listing), then `prefetchBody`.  Returns the trace of PVR calls and the
new actor state (the event is recorded in the seen cache in every case;
the exclude tag is resolved in place once a series was found). -/
def prefetch (cfg : Config) (env : Env) (now : Nat) (st : ActorState)
    (np : NowPlaying) : List PvrCall × ActorState :=
  let gate := seenOnceEvent now np st.seen
  let st1 : ActorState := { st with seen := gate.2 }
  if !gate.1 then ([], st1)
  else
    match env.seriesList.find? (seriesMatches np.series) with
    | none => ([PvrCall.listSeries], st1)
    | some series =>
      (PvrCall.listSeries :: prefetchBody cfg env series st1.excludeTag np,
        { st1 with excludeTag := st1.excludeTag.map (update_tag env.tags) })

/-- Count the calls in a trace satisfying a predicate. -/
def countCalls (p : PvrCall → Bool) (t : List PvrCall) : Nat :=
  (t.filter p).length

/-- Whether a call is the series-listing GET. -/
def isListSeries : PvrCall → Bool
  | PvrCall.listSeries => true
  | _ => false

/-- Whether a call is a `SeasonSearch` command. -/
def isSeasonSearch : PvrCall → Bool
  | PvrCall.seasonSearch _ _ => true
  | _ => false

/-- Whether a call is a series PUT. -/
def isPutSeries : PvrCall → Bool
  | PvrCall.putSeries _ => true
  | _ => false

/-- Whether a call is the episode-monitoring PUT. -/
def isMonitorEpisodes : PvrCall → Bool
  | PvrCall.monitorEpisodes _ => true
  | _ => false

/-- Whether a call is an `EpisodeSearch` command. -/
def isEpisodeSearch : PvrCall → Bool
  | PvrCall.episodeSearch _ => true
  | _ => false

/-! ## Lemmas about the seen cache -/

theorem seenOnce_fst (now : Nat) (sr : Series) (sn : Int) (st : List Entry) :
    (seenOnce now sr sn st).1 = (prune now st).all (fun e => !(e.matches sr sn)) := rfl

theorem seenOnce_snd (now : Nat) (sr : Series) (sn : Int) (st : List Entry) :
    (seenOnce now sr sn st).2 =
      ⟨sr, sn, now⟩ :: (prune now st).filter (fun e => !(e.matches sr sn)) := rfl

/-- If every live entry for the key is stale, `once` reports fresh. -/
theorem seenOnce_fresh_of_stale (now : Nat) (sr : Series) (sn : Int) (st : List Entry)
    (h : ∀ en ∈ st, en.matches sr sn = true → RETAIN_DURATION < now - en.touched) :
    (seenOnce now sr sn st).1 = true := by
  rw [seenOnce_fst]
  rw [List.all_eq_true]
  intro e he
  rw [prune, List.mem_filter] at he
  simp only [Bool.not_eq_true', Bool.not_eq_true]
  by_contra hmatch
  rw [Bool.not_eq_false] at hmatch
  have := h e he.1 hmatch
  have hle : now - e.touched ≤ RETAIN_DURATION := by
    have := he.2
    simpa [prune] using this
  omega

/-- An immediate (within-retention) repeat of the same key reports seen. -/
theorem seenOnce_repeat_false (now now' : Nat) (sr : Series) (sn : Int) (st : List Entry)
    (h1 : now ≤ now') (h2 : now' - now ≤ RETAIN_DURATION) :
    (seenOnce now' sr sn (seenOnce now sr sn st).2).1 = false := by
  rw [seenOnce_fst, seenOnce_snd]
  have hmem : (⟨sr, sn, now⟩ : Entry) ∈
      prune now' (⟨sr, sn, now⟩ :: (prune now st).filter (fun e => !(e.matches sr sn))) := by
    rw [prune, List.mem_filter]
    exact ⟨List.mem_cons_self _ _, by simpa using h2⟩
  rw [List.all_eq_false]
  refine ⟨_, hmem, ?_⟩
  simp [Entry.matches]

/-- After any call, every surviving entry for the key was touched at the
time of that call. -/
theorem seenOnce_refreshes (now : Nat) (sr : Series) (sn : Int) (st : List Entry) :
    ∀ en ∈ (seenOnce now sr sn st).2, en.matches sr sn = true → en.touched = now := by
  rw [seenOnce_snd]
  intro en hen hmatch
  rcases List.mem_cons.mp hen with h | h
  · rw [h]
  · rw [List.mem_filter] at h
    rw [hmatch] at h
    simp at h

/-! ## C1: the deduplication key -/

/-- A concrete user for counterexamples. -/
def someUser : User := ⟨"user", "08ba1929"⟩

/-- Event mirroring the `ignore_episode` unit test, episode 2. -/
def npEp2 : NowPlaying := ⟨Series.Tvdb 1, 2, 3, someUser, none⟩

/-- Event mirroring the `ignore_episode` unit test, episode 4. -/
def npEp4 : NowPlaying := ⟨Series.Tvdb 1, 4, 3, someUser, none⟩

/-- C1 counterexample: two distinct events that differ only in the episode
number are NOT distinct deduplication keys — the first call returns true
but the first call for the second event already returns false, because the
cache keys on `(series, season)` only (cf. the `ignore_episode` test). -/
theorem seen_event_key_counterexample :
    npEp2 ≠ npEp4 ∧
    (seenOnceEvent 0 npEp2 []).1 = true ∧
    (seenOnceEvent 0 npEp4 (seenOnceEvent 0 npEp2 []).2).1 = false := by
  refine ⟨by decide, rfl, by decide⟩

/-- C1 (amended): the deduplication key of an event is its
`(series, season)` pair.  `Seen.once` is true the first time a key is
observed within the 7-day retention window; any event carrying the same
pair — whatever its other fields, including the episode number — is then
reported seen within the window, while an event whose season (or series)
differs is a distinct key and its first call returns true. -/
theorem seen_event_key_spec (now : Nat) (st : List Entry) (e e2 : NowPlaying)
    (hst : ∀ en ∈ st, en.matches e.series e.season = true →
      RETAIN_DURATION < now - en.touched) :
    (seenOnceEvent now e st).1 = true ∧
    (∀ e', e'.series = e.series → e'.season = e.season →
      ∀ now', now ≤ now' → now' - now ≤ RETAIN_DURATION →
        (seenOnceEvent now' e' (seenOnceEvent now e st).2).1 = false) ∧
    ((e2.series = e.series → e2.season ≠ e.season) →
      (∀ en ∈ st, en.matches e2.series e2.season = true →
        RETAIN_DURATION < now - en.touched) →
      ∀ now', now ≤ now' →
        (seenOnceEvent now' e2 (seenOnceEvent now e st).2).1 = true) := by
  refine ⟨seenOnce_fresh_of_stale now e.series e.season st hst, ?_, ?_⟩
  · intro e' hs hn now' h1 h2
    rw [seenOnceEvent, hs, hn]
    exact seenOnce_repeat_false now now' e.series e.season st h1 h2
  · intro hkey hst2 now' h1
    rw [seenOnceEvent, seenOnceEvent, seenOnce_snd]
    apply seenOnce_fresh_of_stale
    intro en hen hmatch
    rcases List.mem_cons.mp hen with h | h
    · exfalso
      rw [h] at hmatch
      rw [Entry.matches] at hmatch
      simp only [Bool.and_eq_true, beq_iff_eq] at hmatch
      exact hkey hmatch.1.symm hmatch.2.symm
    · rw [List.mem_filter] at h
      have hmem : en ∈ st := by
        have := h.1
        rw [prune, List.mem_filter] at this
        exact this.1
      have := hst2 en hmem hmatch
      omega

/-! ## C2: a cache hit refreshes the timestamp -/

/-- The series used for the C2 counterexample. -/
def c2Series : Series := Series.Tvdb 1

/-- C2 counterexample: an event first recorded at time 0 and repeated at
time 5 is still reported seen at time `RETAIN_DURATION + 3`, i.e. more
than 7 days after the first recording: the intervening hit refreshed the
entry's timestamp (cf. the `touch` unit test), contradicting the claim
that a hit leaves the stored timestamp untouched. -/
theorem seen_touch_counterexample :
    (seenOnce 0 c2Series 3 []).1 = true ∧
    (seenOnce 5 c2Series 3 (seenOnce 0 c2Series 3 []).2).1 = false ∧
    RETAIN_DURATION < (RETAIN_DURATION + 3) - 0 ∧
    (seenOnce (RETAIN_DURATION + 3) c2Series 3
      (seenOnce 5 c2Series 3 (seenOnce 0 c2Series 3 []).2).2).1 = false := by
  refine ⟨rfl, by decide, by decide, by decide⟩

/-- C2 (amended): a cache hit DOES refresh the stored timestamp — after any
call the surviving entry for the key is touched at the time of that call —
so the key stays suppressed as long as repeats arrive within 7 days of the
previous call, and is treated as unseen again only once more than 7 days
have elapsed since the last call (not since the first recording). -/
theorem seen_touch_spec (now : Nat) (sr : Series) (sn : Int) (st : List Entry) :
    (∀ en ∈ (seenOnce now sr sn st).2, en.matches sr sn = true → en.touched = now) ∧
    (∀ now', now ≤ now' → now' - now ≤ RETAIN_DURATION →
      (seenOnce now' sr sn (seenOnce now sr sn st).2).1 = false) ∧
    ((∀ en ∈ st, en.matches sr sn = true → RETAIN_DURATION < now - en.touched) →
      (seenOnce now sr sn st).1 = true) := by
  refine ⟨seenOnce_refreshes now sr sn st, ?_, seenOnce_fresh_of_stale now sr sn st⟩
  intro now' h1 h2
  exact seenOnce_repeat_false now now' sr sn st h1 h2

/-- Witness for `seen_event_key_spec` at a concrete input. -/
theorem seen_event_key_spec_witness :
    (seenOnceEvent 0 npEp2 []).1 = true ∧
    (seenOnceEvent 0 npEp4 (seenOnceEvent 0 npEp2 []).2).1 = false ∧
    (seenOnceEvent 0 ⟨Series.Tvdb 1, 2, 4, someUser, none⟩
      (seenOnceEvent 0 npEp2 []).2).1 = true := by
  have h := seen_event_key_spec 0 [] npEp2 ⟨Series.Tvdb 1, 2, 4, someUser, none⟩
    (by intro en hen _; cases hen)
  refine ⟨h.1, ?_, ?_⟩
  · exact h.2.1 npEp4 rfl rfl 0 (Nat.le_refl 0) (by decide)
  · exact h.2.2 (by intro _ h; exact absurd h (by decide)) (by intro en hen _; cases hen)
      0 (Nat.le_refl 0)

/-- Witness for `seen_touch_spec` at a concrete input. -/
theorem seen_touch_spec_witness :
    (∀ en ∈ (seenOnce 7 c2Series 3 []).2, en.matches c2Series 3 = true → en.touched = 7) ∧
    (seenOnce 9 c2Series 3 (seenOnce 7 c2Series 3 []).2).1 = false := by
  have h := seen_touch_spec 7 c2Series 3 []
  exact ⟨h.1, h.2.1 9 (by decide) (by decide)⟩

/-! ## C6: bounded retry with backoff -/

theorem retryAfterErr_attempts_le {E T : Type} (f : Nat → Except E T) :
    ∀ (i fuel : Nat) (e : E), (retryAfterErr f i fuel e).attempts ≤ fuel := by
  intro i fuel
  induction fuel generalizing i with
  | zero => intro e; simp [retryAfterErr]
  | succ n ih =>
    intro e
    rw [retryAfterErr]
    cases f i with
    | ok t => simp
    | error e' =>
      simp only
      exact Nat.succ_le_succ (ih (i + 1) e')

theorem retryAfterErr_sleeps {E T : Type} (f : Nat → Except E T) :
    ∀ (i fuel : Nat) (e : E),
      (retryAfterErr f i fuel e).sleeps =
        (List.range' i (retryAfterErr f i fuel e).attempts).map sleepSecs := by
  intro i fuel
  induction fuel generalizing i with
  | zero => intro e; simp [retryAfterErr]
  | succ n ih =>
    intro e
    rw [retryAfterErr]
    cases f i with
    | ok t => simp [List.range'_succ]
    | error e' =>
      show sleepSecs i :: (retryAfterErr f (i + 1) n e').sleeps =
        (List.range' i ((retryAfterErr f (i + 1) n e').attempts + 1)).map sleepSecs
      rw [List.range'_succ, List.map_cons, ih (i + 1) e']

/-- The error value reached after exhausting `fuel` attempts starting at
index `i`: the incoming error when no attempt remains, else the error of
the last attempt. -/
def lastErr {E : Type} (g : Nat → E) (e : E) (i : Nat) : Nat → E
  | 0 => e
  | k + 1 => g (i + k)

theorem retryAfterErr_all_fail {E T : Type} (f : Nat → Except E T) (g : Nat → E) :
    ∀ (i fuel : Nat) (e : E),
      (∀ j, i ≤ j → j < i + fuel → f j = Except.error (g j)) →
      retryAfterErr f i fuel e =
        ⟨Except.error (lastErr g e i fuel), fuel, (List.range' i fuel).map sleepSecs⟩ := by
  intro i fuel
  induction fuel generalizing i with
  | zero => intro e _; simp [retryAfterErr, lastErr]
  | succ n ih =>
    intro e hf
    rw [retryAfterErr]
    rw [hf i (Nat.le_refl i) (by omega)]
    simp only
    rw [ih (i + 1) (g i) (by intro j h1 h2; exact hf j (by omega) (by omega))]
    rw [List.range'_succ, List.map_cons]
    cases n with
    | zero => rfl
    | succ k =>
      show (⟨Except.error (g (i + 1 + k)), (k + 1) + 1,
        sleepSecs i :: (List.range' (i + 1) (k + 1)).map sleepSecs⟩ : RetryRun E T) =
        ⟨Except.error (g (i + (k + 1))), (k + 1) + 1,
          sleepSecs i :: (List.range' (i + 1) (k + 1)).map sleepSecs⟩
      rw [Nat.add_assoc, Nat.add_comm 1 k]

theorem retryAfterErr_first_success {E T : Type} (f : Nat → Except E T) (g : Nat → E) :
    ∀ (j i fuel : Nat) (e : E) (t : T),
      j < fuel →
      (∀ m, i ≤ m → m < i + j → f m = Except.error (g m)) →
      f (i + j) = Except.ok t →
      retryAfterErr f i fuel e =
        ⟨Except.ok t, j + 1, (List.range' i (j + 1)).map sleepSecs⟩ := by
  intro j
  induction j with
  | zero =>
    intro i fuel e t hlt _ hok
    cases fuel with
    | zero => omega
    | succ k =>
      rw [Nat.add_zero] at hok
      rw [retryAfterErr, hok]
      rfl
  | succ m ih =>
    intro i fuel e t hlt hfail hok
    cases fuel with
    | zero => omega
    | succ k =>
      rw [retryAfterErr]
      rw [hfail i (Nat.le_refl i) (by omega)]
      simp only
      rw [ih (i + 1) k (g i) t (by omega)
        (by intro m' h1 h2; exact hfail m' (by omega) (by omega))
        (by rw [show i + 1 + m = i + (m + 1) by omega]; exact hok)]
      show (⟨Except.ok t, (m + 1) + 1,
        sleepSecs i :: (List.range' (i + 1) (m + 1)).map sleepSecs⟩ : RetryRun E T) =
        ⟨Except.ok t, (m + 1) + 1, (List.range' i (m + 1 + 1)).map sleepSecs⟩
      conv_rhs => rw [List.range'_succ, List.map_cons]

/-- C6: `retry(n, op)` makes at most `n + 1` attempts; the first success —
at whatever attempt index it occurs — is returned at once, with no further
attempts and no sleeps beyond those already performed; every attempt after
the first is preceded by a sleep of `2^i` time units where `i` is its
attempt index (so the sleeps are `sleepSecs 1, …`); and when every attempt
fails the overall result is the error of the last attempt, after exactly
`n + 1` attempts and sleeps `2^1, …, 2^n`. -/
theorem retry_spec {E T : Type} (retries : Nat) (f : Nat → Except E T) (g : Nat → E)
    (t : T) :
    ((retry retries f).attempts ≤ retries + 1) ∧
    ((retry retries f).sleeps =
      (List.range' 1 ((retry retries f).attempts - 1)).map sleepSecs) ∧
    (f 0 = Except.ok t → retry retries f = ⟨Except.ok t, 1, []⟩) ∧
    (∀ (j : Nat) (t2 : T), j ≤ retries →
      (∀ i, i < j → f i = Except.error (g i)) →
      f j = Except.ok t2 →
      retry retries f = ⟨Except.ok t2, j + 1, (List.range' 1 j).map sleepSecs⟩) ∧
    ((∀ j, j ≤ retries → f j = Except.error (g j)) →
      retry retries f =
        ⟨Except.error (g retries), retries + 1, (List.range' 1 retries).map sleepSecs⟩) := by
  refine ⟨?_, ?_, ?_, ?_, ?_⟩
  · rw [retry]
    cases f 0 with
    | ok t' => simp
    | error e =>
      simp only
      exact Nat.succ_le_succ (retryAfterErr_attempts_le f 1 retries e)
  · rw [retry]
    cases f 0 with
    | ok t' => simp
    | error e =>
      simp only [Nat.add_sub_cancel]
      exact retryAfterErr_sleeps f 1 retries e
  · intro h
    rw [retry, h]
  · intro j t2 hj hfail hok
    cases j with
    | zero =>
      rw [retry, hok]
      rfl
    | succ m =>
      have h0 : f 0 = Except.error (g 0) := hfail 0 (by omega)
      rw [retry, h0]
      simp only
      rw [retryAfterErr_first_success f g m 1 retries (g 0) t2 (by omega)
        (by intro m' h1 h2; exact hfail m' (by omega))
        (by rw [show 1 + m = m + 1 by omega]; exact hok)]
  · intro h
    rw [retry, h 0 (Nat.zero_le retries)]
    simp only
    rw [retryAfterErr_all_fail f g 1 retries (g 0)
      (by intro j h1 h2; exact h j (by omega))]
    cases retries with
    | zero => rfl
    | succ k =>
      show (⟨Except.error (g (1 + k)), (k + 1) + 1,
        (List.range' 1 (k + 1)).map sleepSecs⟩ : RetryRun E T) =
        ⟨Except.error (g (k + 1)), (k + 1) + 1, (List.range' 1 (k + 1)).map sleepSecs⟩
      rw [Nat.add_comm 1 k]

/-- Witness for `retry_spec`: `retry 3 always_fails` makes exactly 4
attempts, sleeps 2 + 4 + 8 = 14 time units, and returns the final error;
an operation succeeding at its first attempt returns at once with no
sleeps; an operation failing at attempt 0 and succeeding at attempt 1
stops after exactly 2 attempts with a single sleep of 2. -/
theorem retry_spec_witness :
    (retry 3 (fun _ => (Except.error 0 : Except Nat Unit))).attempts = 4 ∧
    (retry 3 (fun _ => (Except.error 0 : Except Nat Unit))).sleeps = [2, 4, 8] ∧
    (2 + 4 + 8 = 14) ∧
    (retry 3 (fun _ => (Except.error 0 : Except Nat Unit))).result = Except.error 0 ∧
    (retry 3 (fun i => if i = 0 then (Except.ok () : Except Nat Unit)
      else Except.error i)) = ⟨Except.ok (), 1, []⟩ ∧
    (retry 3 (fun i => if i = 0 then (Except.error 0 : Except Nat Unit)
      else Except.ok ())).attempts = 2 ∧
    (retry 3 (fun i => if i = 0 then (Except.error 0 : Except Nat Unit)
      else Except.ok ())).sleeps = [2] ∧
    (retry 3 (fun i => if i = 0 then (Except.error 0 : Except Nat Unit)
      else Except.ok ())).result = Except.ok () := by
  have h := (retry_spec 3 (fun _ => (Except.error 0 : Except Nat Unit))
    (fun _ => 0) ()).2.2.2.2 (by intro j _; rfl)
  have h2 := (retry_spec 3 (fun i => if i = 0 then (Except.ok () : Except Nat Unit)
    else Except.error i) (fun i => i) ()).2.2.1 rfl
  have h3 := (retry_spec 3 (fun i => if i = 0 then (Except.error 0 : Except Nat Unit)
    else Except.ok ()) (fun _ => 0) ()).2.2.2.1 1 () (by omega)
    (by intro i hi
        have hz : i = 0 := by omega
        rw [hz]
        rfl)
    rfl
  rw [h, h3]
  refine ⟨rfl, by decide, rfl, rfl, h2, rfl, by decide, rfl⟩

/-! ## C3 and C4: the episode window -/

/-- `stepOK` expressed on bare `(season, episode)` positions. -/
def stepOKPair (p q : Int × Int) : Bool :=
  let seasonDelta := satSub32 q.1 p.1
  let episodeDelta := satSub32 q.2 p.2
  (seasonDelta == 1 && q.2 == 1) ||
    (seasonDelta == 0 && episodeDelta == 1) ||
    (seasonDelta == 0 && episodeDelta == 0)

theorem stepOK_eq_pair (ps pe : Int) (ep : EpisodeResource) :
    stepOK ps pe ep = stepOKPair (ps, pe) (ep.seasonNumber, ep.episodeNumber) := rfl

/-- The position of an episode in the catalogue ordering. -/
def epPos (e : EpisodeResource) : Int × Int := (e.seasonNumber, e.episodeNumber)

theorem chain_take {α : Type} {R : α → α → Prop} :
    ∀ (a : α) (l : List α) (n : Nat), List.Chain R a l → List.Chain R a (l.take n) := by
  intro a l
  induction l generalizing a with
  | nil => intro n _; simpa using List.Chain.nil
  | cons b t ih =>
    intro n h
    rw [List.chain_cons] at h
    cases n with
    | zero => exact List.Chain.nil
    | succ m =>
      rw [List.take_succ_cons]
      exact List.Chain.cons h.1 (ih b m h.2)

theorem windowWalk_chain (l : List EpisodeResource) :
    ∀ (ps pe : Int), List.Chain (fun p q => stepOKPair p q = true) (ps, pe)
      ((windowWalk ps pe l).map epPos) := by
  induction l with
  | nil => intro ps pe; rw [windowWalk]; exact List.Chain.nil
  | cons ep rest ih =>
    intro ps pe
    rw [windowWalk]
    by_cases h : stepOK ps pe ep = true
    · rw [if_pos h, List.map_cons]
      exact List.Chain.cons h (ih ep.seasonNumber ep.episodeNumber)
    · rw [if_neg h]
      exact List.Chain.nil

theorem insertEp_mem (e x : EpisodeResource) :
    ∀ l, x ∈ insertEp e l → x = e ∨ x ∈ l := by
  intro l
  induction l with
  | nil =>
    intro h
    rw [insertEp] at h
    rcases List.mem_singleton.mp h with h'
    exact Or.inl h'
  | cons b t ih =>
    intro h
    rw [insertEp] at h
    by_cases hb : keyLt b e = true
    · rw [if_pos hb] at h
      rcases List.mem_cons.mp h with h' | h'
      · exact Or.inr (List.mem_cons.mpr (Or.inl h'))
      · rcases ih h' with h'' | h''
        · exact Or.inl h''
        · exact Or.inr (List.mem_cons.mpr (Or.inr h''))
    · rw [if_neg hb] at h
      rcases List.mem_cons.mp h with h' | h'
      · exact Or.inl h'
      · exact Or.inr h'

theorem sortEpisodes_mem (x : EpisodeResource) :
    ∀ l, x ∈ sortEpisodes l → x ∈ l := by
  intro l
  induction l with
  | nil => intro h; exact absurd h (by simp [sortEpisodes])
  | cons b t ih =>
    intro h
    have h' : x ∈ insertEp b (sortEpisodes t) := h
    rcases insertEp_mem b x (sortEpisodes t) h' with h'' | h''
    · exact List.mem_cons.mpr (Or.inl h'')
    · exact List.mem_cons.mpr (Or.inr (ih h''))

/-- C3: the episode window never returns more than `n` items; it returns
the empty list when no candidate matches the start position; every two
consecutive positions in its output (starting from the start position)
differ by a permitted delta — next episode, season rollover to episode 1,
or duplicate — so a gap is never crossed; and concretely it maps
`[(1,8),(2,1)]` with start `(1,8)`, `n = 1` to `[(2,1)]`, and
`[(1,1),(1,3)]` with start `(1,1)`, `n = 1` to `[]`. -/
theorem episode_window_spec (seasonStart episodeStart : Int) (num : Nat)
    (episodes : List EpisodeResource) :
    ((episode_window seasonStart episodeStart num episodes).length ≤ num) ∧
    ((∀ e ∈ episodes,
        ¬(e.seasonNumber = seasonStart ∧ e.episodeNumber = episodeStart)) →
      episode_window seasonStart episodeStart num episodes = []) ∧
    (List.Chain (fun p q => stepOKPair p q = true) (seasonStart, episodeStart)
      ((episode_window seasonStart episodeStart num episodes).map epPos)) ∧
    (episode_window 1 8 1 [⟨1, 1, 8, false, false⟩, ⟨2, 2, 1, false, false⟩] =
      [⟨2, 2, 1, false, false⟩]) ∧
    (episode_window 1 1 1 [⟨1, 1, 1, false, false⟩, ⟨2, 1, 3, false, false⟩] = []) := by
  refine ⟨?_, ?_, ?_, by decide, by decide⟩
  · rw [episode_window]
    exact List.length_take_le num _
  · intro h
    rw [episode_window]
    have hall : (sortEpisodes episodes).dropWhile
        (fun ep => !(ep.seasonNumber == seasonStart && ep.episodeNumber == episodeStart))
        = [] := by
      rw [List.dropWhile_eq_nil_iff]
      intro x hx
      have hmem := sortEpisodes_mem x episodes hx
      have hne := h x hmem
      simp only [Bool.not_eq_true', Bool.and_eq_false_iff, beq_eq_false_iff_ne, ne_eq]
      tauto
    rw [hall]
    simp [windowWalk]
  · rw [episode_window, List.map_take]
    exact chain_take _ _ num (windowWalk_chain _ seasonStart episodeStart)

/-- Witness for `episode_window_spec` at concrete inputs: a start position
absent from the catalogue yields the empty window, and the bound `n` is
respected. -/
theorem episode_window_spec_witness :
    episode_window 7 7 3 [⟨1, 1, 1, false, false⟩, ⟨9, 5, 5, false, false⟩] = [] ∧
    (episode_window 1 8 1 [⟨1, 1, 8, false, false⟩, ⟨2, 2, 1, false, false⟩]).length
      ≤ 1 := by
  have h := episode_window_spec 7 7 3 [⟨1, 1, 1, false, false⟩, ⟨9, 5, 5, false, false⟩]
  have h2 := episode_window_spec 1 8 1 [⟨1, 1, 8, false, false⟩, ⟨2, 2, 1, false, false⟩]
  exact ⟨h.2.1 (by decide), h2.1⟩

/-- C4: `Client::episodes` returns the empty window immediately (no remote
fetch) whenever the playing season is season 0, whatever the series, the
start episode, the requested count and the remote catalogue are. -/
theorem episodes_specials_empty (env : Env) (series : SeriesResource)
    (episodeStart : Int) (num : Nat) :
    episodesClient env series 0 episodeStart num = ([], []) := rfl

/-! ## Trace lemmas -/

theorem countCalls_nil (p : PvrCall → Bool) : countCalls p [] = 0 := rfl

theorem countCalls_append (p : PvrCall → Bool) (a b : List PvrCall) :
    countCalls p (a ++ b) = countCalls p a + countCalls p b := by
  simp [countCalls, List.filter_append]

theorem countCalls_cons (p : PvrCall → Bool) (x : PvrCall) (t : List PvrCall) :
    countCalls p (x :: t) = (if p x then 1 else 0) + countCalls p t := by
  simp only [countCalls, List.filter_cons]
  split
  · simp [Nat.add_comm]
  · simp

theorem tagFetchTrace_no_listSeries (t : Tag) :
    countCalls isListSeries (tagFetchTrace t) = 0 := by
  cases t <;> rfl

theorem optTagTrace_no_listSeries (o : Option Tag) :
    countCalls isListSeries ((o.map tagFetchTrace).getD []) = 0 := by
  cases o with
  | none => rfl
  | some t => exact tagFetchTrace_no_listSeries t

theorem episodesClient_fst (env : Env) (series : SeriesResource)
    (ss es : Int) (n : Nat) :
    (episodesClient env series ss es n).1 = [] ∨
      (episodesClient env series ss es n).1 = [PvrCall.getEpisodes series.id] := by
  rw [episodesClient]
  split
  · exact Or.inl rfl
  · exact Or.inr rfl

theorem episodesClient_no_listSeries (env : Env) (series : SeriesResource)
    (ss es : Int) (n : Nat) :
    countCalls isListSeries (episodesClient env series ss es n).1 = 0 := by
  rcases episodesClient_fst env series ss es n with h | h <;> rw [h] <;> rfl

theorem search_season_no_listSeries (env : Env) (series : SeriesResource) (sn : Int) :
    countCalls isListSeries (search_season env series sn).1 = 0 := by
  rw [search_season]
  split
  · rfl
  · simp only
    rw [countCalls_append, countCalls_append]
    have h1 : ∀ b : Bool, countCalls isListSeries
        (if b then PvrCall.getEpisodes series.id ::
          (if (env.episodesResp.filter (fun e => e.seasonNumber == sn)).isEmpty then []
           else [PvrCall.monitorEpisodes
             ((env.episodesResp.filter (fun e => e.seasonNumber == sn)).map
               (fun e => e.id))]) else []) = 0 := by
      intro b
      cases b
      · rfl
      · simp only [if_true]
        rw [countCalls_cons]
        split
        · simp [isListSeries] at *
        · simp only [Nat.zero_add]
          split <;> rfl
    rw [h1]
    have h2 : ∀ b : Bool, ∀ s : SeriesResource, countCalls isListSeries
        (if b then [PvrCall.putSeries s] else []) = 0 := by
      intro b s; cases b <;> rfl
    rw [h2]
    rfl

theorem flatten_no_listSeries (env : Env) (series : SeriesResource) (l : List Int) :
    countCalls isListSeries
      ((l.map (fun sn => (search_season env series sn).1)).flatten) = 0 := by
  induction l with
  | nil => rfl
  | cons x t ih =>
    rw [List.map_cons, List.flatten_cons, countCalls_append,
      search_season_no_listSeries, ih]

theorem countCalls_single (p : PvrCall → Bool) (x : PvrCall) :
    countCalls p [x] = if p x then 1 else 0 := by
  simp only [countCalls, List.filter_cons]
  split <;> simp

theorem countCalls_put_if (p : PvrCall → Bool) (c : Prop) [Decidable c]
    (s : SeriesResource) (h : p (PvrCall.putSeries s) = false) :
    countCalls p (if c then [PvrCall.putSeries s] else []) = 0 := by
  split
  · simp [countCalls, List.filter, h]
  · rfl

theorem prefetchBody_no_listSeries (cfg : Config) (env : Env)
    (series : SeriesResource) (tg : Option Tag) (np : NowPlaying) :
    countCalls isListSeries (prefetchBody cfg env series tg np) = 0 := by
  rw [prefetchBody]
  split
  · exact optTagTrace_no_listSeries tg
  · dsimp only
    split
    · rw [countCalls_append, countCalls_append, countCalls_append,
        optTagTrace_no_listSeries, episodesClient_no_listSeries,
        flatten_no_listSeries, countCalls_put_if _ _ _ rfl]
    · rw [countCalls_append, countCalls_append, countCalls_append,
        optTagTrace_no_listSeries, episodesClient_no_listSeries,
        countCalls_put_if _ _ _ rfl]
      rfl

/-- Dropped events issue no PVR interaction. -/
theorem prefetch_drop (cfg : Config) (env : Env) (now : Nat) (st : ActorState)
    (np : NowPlaying) (h : (seenOnceEvent now np st.seen).1 = false) :
    (prefetch cfg env now st np).1 = [] := by
  rw [prefetch]
  simp only [h]
  rfl

/-- Every branch of `prefetch` records the event in the seen cache. -/
theorem prefetch_seen (cfg : Config) (env : Env) (now : Nat) (st : ActorState)
    (np : NowPlaying) :
    (prefetch cfg env now st np).2.seen = (seenOnceEvent now np st.seen).2 := by
  rw [prefetch]
  split
  · rfl
  · split <;> rfl

/-- A processed (fresh) event issues exactly one series-listing call. -/
theorem prefetch_one_listing (cfg : Config) (env : Env) (now : Nat) (st : ActorState)
    (np : NowPlaying) (h : (seenOnceEvent now np st.seen).1 = true) :
    countCalls isListSeries (prefetch cfg env now st np).1 = 1 := by
  rw [prefetch]
  simp only [h, Bool.not_true, Bool.false_eq_true, if_false]
  split
  · rfl
  · simp only [countCalls_cons, isListSeries, if_true, prefetchBody_no_listSeries]

/-- C7: an event whose dedup gate answers "already seen" is dropped with no
PVR interaction at all, and sending the identical event twice in a row
(within the retention window) produces exactly one series-listing call
across both cycles: the first cycle lists once, the second is dropped. -/
theorem dedup_gate_spec (cfg : Config) (env : Env) (now now2 : Nat) (np : NowPlaying)
    (tg : Option Tag) (h1 : now ≤ now2) (h2 : now2 - now ≤ RETAIN_DURATION) :
    (∀ st : ActorState, (seenOnceEvent now np st.seen).1 = false →
      (prefetch cfg env now st np).1 = []) ∧
    countCalls isListSeries
      ((prefetch cfg env now ⟨[], tg⟩ np).1 ++
        (prefetch cfg env now2 ((prefetch cfg env now ⟨[], tg⟩ np).2) np).1) = 1 := by
  constructor
  · intro st h
    exact prefetch_drop cfg env now st np h
  · rw [countCalls_append]
    have hfirst : countCalls isListSeries (prefetch cfg env now ⟨[], tg⟩ np).1 = 1 := by
      apply prefetch_one_listing
      rfl
    have hgate2 : (seenOnceEvent now2 np ((prefetch cfg env now ⟨[], tg⟩ np).2).seen).1
        = false := by
      rw [prefetch_seen]
      exact seenOnce_repeat_false now now2 np.series np.season _ h1 h2
    have hsecond := prefetch_drop cfg env now2 _ np hgate2
    rw [hfirst, hsecond]
    rfl

/-- Witness for `dedup_gate_spec` at a concrete input. -/
theorem dedup_gate_spec_witness :
    countCalls isListSeries
      ((prefetch ⟨1, false⟩ ⟨[], [], [], fun _ => false⟩ 0 ⟨[], none⟩ npEp2).1 ++
        (prefetch ⟨1, false⟩ ⟨[], [], [], fun _ => false⟩ 4
          ((prefetch ⟨1, false⟩ ⟨[], [], [], fun _ => false⟩ 0 ⟨[], none⟩ npEp2).2)
          npEp2).1) = 1 :=
  (dedup_gate_spec ⟨1, false⟩ ⟨[], [], [], fun _ => false⟩ 0 4 npEp2 none
    (by decide) (by decide)).2

/-! ## C9: `search_season` monitors before searching -/

theorem setSeasonMonitored_find (sn : Int) :
    ∀ (l : List SeasonResource) (season : SeasonResource),
      l.find? (fun s => s.seasonNumber == sn) = some season →
      (setSeasonMonitored l sn).1.find? (fun s => s.seasonNumber == sn) =
        some { season with monitored := true } := by
  intro l
  induction l with
  | nil => intro season h; simp at h
  | cons x t ih =>
    intro season h
    by_cases hx : (x.seasonNumber == sn) = true
    · simp only [List.find?_cons, hx] at h
      injection h with h
      simp only [setSeasonMonitored, hx, if_true]
      rw [← h]
      rw [List.find?_cons_of_pos]
      exact hx
    · have hx' : (x.seasonNumber == sn) = false := by simpa using hx
      simp only [List.find?_cons, hx'] at h
      simp only [setSeasonMonitored, hx', Bool.false_eq_true, if_false]
      rw [List.find?_cons_of_neg]
      · exact ih season h
      · simp [hx']

/-- C9: for every series and existing season, `search_season` issues the
`SeasonSearch` command exactly once and as the last call; when the season
was already monitored the series' episodes are fetched first (and the
season's episodes monitored when there are any); when the season or the
series was unmonitored, a series PUT whose record is monitored and has
that season monitored is issued before the command; and when both were
already monitored no series PUT happens at all. -/
theorem search_season_spec (env : Env) (series : SeriesResource) (seasonNum : Int)
    (season : SeasonResource)
    (hfind : series.seasons.find? (fun s => s.seasonNumber == seasonNum) = some season) :
    ((search_season env series seasonNum).1.getLast? =
      some (PvrCall.seasonSearch series.id seasonNum)) ∧
    (countCalls isSeasonSearch (search_season env series seasonNum).1 = 1) ∧
    (season.monitored = true →
      ((search_season env series seasonNum).1.head? =
        some (PvrCall.getEpisodes series.id)) ∧
      ((env.episodesResp.filter (fun e => e.seasonNumber == seasonNum)) ≠ [] →
        PvrCall.monitorEpisodes
          ((env.episodesResp.filter (fun e => e.seasonNumber == seasonNum)).map
            (fun e => e.id)) ∈ (search_season env series seasonNum).1)) ∧
    (season.monitored = false ∨ series.monitored = false →
      PvrCall.putSeries
        { series with monitored := true,
                      seasons := (setSeasonMonitored series.seasons seasonNum).1 }
        ∈ (search_season env series seasonNum).1) ∧
    (season.monitored = true → series.monitored = true →
      countCalls isPutSeries (search_season env series seasonNum).1 = 0) ∧
    ((setSeasonMonitored series.seasons seasonNum).1.find?
        (fun s => s.seasonNumber == seasonNum) =
      some { season with monitored := true }) := by
  rw [search_season, hfind]
  dsimp only
  refine ⟨?_, ?_, ?_, ?_, ?_, setSeasonMonitored_find seasonNum series.seasons season hfind⟩
  · rw [List.getLast?_concat]
  · rw [countCalls_append, countCalls_append]
    have h1 : countCalls isSeasonSearch
        (if season.monitored = true then PvrCall.getEpisodes series.id ::
          (if (env.episodesResp.filter (fun e => e.seasonNumber == seasonNum)).isEmpty
           then []
           else [PvrCall.monitorEpisodes
             ((env.episodesResp.filter (fun e => e.seasonNumber == seasonNum)).map
               (fun e => e.id))]) else []) = 0 := by
      split
      · rw [countCalls_cons]
        simp only [isSeasonSearch, Bool.false_eq_true, if_false]
        split
        · rfl
        · simp [countCalls_single, isSeasonSearch]
      · rfl
    have h2 : countCalls isSeasonSearch
        (if (!season.monitored || !series.monitored) = true then
          [PvrCall.putSeries
            { series with monitored := true,
                          seasons := (setSeasonMonitored series.seasons seasonNum).1 }]
         else []) = 0 := by
      split
      · simp [countCalls_single, isSeasonSearch]
      · rfl
    rw [h1, h2]
    rfl
  · intro hm
    rw [hm]
    constructor
    · simp only [if_true]
      rfl
    · intro hne
      have hemp : (env.episodesResp.filter (fun e => e.seasonNumber == seasonNum)).isEmpty
          = false := by
        simpa [List.isEmpty_iff] using hne
      simp only [if_true, hemp, Bool.false_eq_true, if_false]
      refine List.mem_append.mpr (Or.inl ?_)
      refine List.mem_append.mpr (Or.inl ?_)
      refine List.mem_cons.mpr (Or.inr ?_)
      exact List.mem_cons.mpr (Or.inl rfl)
  · intro hcond
    have hb : (!season.monitored || !series.monitored) = true := by
      rcases hcond with h | h <;> rw [h] <;> simp
    rw [hb]
    simp only [if_true]
    refine List.mem_append.mpr (Or.inl ?_)
    refine List.mem_append.mpr (Or.inr ?_)
    exact List.mem_cons.mpr (Or.inl rfl)
  · intro hm hs
    have h1 : countCalls isPutSeries
        (if (env.episodesResp.filter (fun e => e.seasonNumber == seasonNum)).isEmpty = true
         then ([] : List PvrCall)
         else [PvrCall.monitorEpisodes
           ((env.episodesResp.filter (fun e => e.seasonNumber == seasonNum)).map
             (fun e => e.id))]) = 0 := by
      split
      · rfl
      · simp [countCalls_single, isPutSeries]
    rw [hm, hs]
    simp only [Bool.not_true, Bool.or_self, if_true, Bool.false_eq_true, if_false]
    rw [countCalls_append, countCalls_append, countCalls_cons, h1]
    simp [isPutSeries, countCalls_single, countCalls_nil]

/-- Witness for `search_season_spec` at a concrete input. -/
theorem search_season_spec_witness :
    ((search_season ⟨[], [], [], fun _ => false⟩
        ⟨1, some "A", 7, false, none, [⟨2, false, none⟩], none⟩ 2).1.getLast? =
      some (PvrCall.seasonSearch 1 2)) ∧
    (PvrCall.putSeries ⟨1, some "A", 7, true, none, [⟨2, true, none⟩], none⟩ ∈
      (search_season ⟨[], [], [], fun _ => false⟩
        ⟨1, some "A", 7, false, none, [⟨2, false, none⟩], none⟩ 2).1) := by
  have h := search_season_spec ⟨[], [], [], fun _ => false⟩
    ⟨1, some "A", 7, false, none, [⟨2, false, none⟩], none⟩ 2 ⟨2, false, none⟩ rfl
  exact ⟨h.1, h.2.2.2.1 (Or.inl rfl)⟩

/-! ## C8: one season search per distinct missing season -/

theorem isSeasonSearch_filter_single (id sn : Int) :
    [PvrCall.seasonSearch id sn].filter isSeasonSearch = [PvrCall.seasonSearch id sn] := rfl

theorem search_season_filter (env : Env) (series : SeriesResource) (sn : Int) :
    (search_season env series sn).1.filter isSeasonSearch =
      (if series.seasons.any (fun s => s.seasonNumber == sn) then
        [PvrCall.seasonSearch series.id sn]
      else []) := by
  rw [search_season]
  cases hfind : series.seasons.find? (fun s => s.seasonNumber == sn) with
  | none =>
    have hany : series.seasons.any (fun s => s.seasonNumber == sn) = false := by
      rw [List.find?_eq_none] at hfind
      simp only [List.any_eq_false]
      intro s hs
      simpa using hfind s hs
    rw [hany]
    rfl
  | some season =>
    have hany : series.seasons.any (fun s => s.seasonNumber == sn) = true := by
      have hmem := List.mem_of_find?_eq_some hfind
      have hps := List.find?_some hfind
      exact List.any_eq_true.mpr ⟨season, hmem, hps⟩
    rw [hany, if_pos rfl]
    dsimp only
    rw [List.filter_append, List.filter_append]
    have h1 : (if season.monitored = true then PvrCall.getEpisodes series.id ::
          (if (env.episodesResp.filter (fun e => e.seasonNumber == sn)).isEmpty
           then []
           else [PvrCall.monitorEpisodes
             ((env.episodesResp.filter (fun e => e.seasonNumber == sn)).map
               (fun e => e.id))]) else []).filter isSeasonSearch = [] := by
      split
      · rw [List.filter_cons]
        simp only [isSeasonSearch, Bool.false_eq_true, if_false]
        split <;> rfl
      · rfl
    have h2 : (if (!season.monitored || !series.monitored) = true then
          [PvrCall.putSeries
            { series with monitored := true,
                          seasons := (setSeasonMonitored series.seasons sn).1 }]
         else []).filter isSeasonSearch = [] := by
      split <;> rfl
    rw [h1, h2, isSeasonSearch_filter_single]
    rfl

theorem filter_seasonSearch_flatten (env : Env) (s3 : SeriesResource) :
    ∀ l : List Int,
      ((l.map (fun sn => (search_season env s3 sn).1)).flatten).filter isSeasonSearch =
        (l.filter (fun sn => s3.seasons.any (fun s => s.seasonNumber == sn))).map
          (fun sn => PvrCall.seasonSearch s3.id sn) := by
  intro l
  induction l with
  | nil => rfl
  | cons x t ih =>
    rw [List.map_cons, List.flatten_cons, List.filter_append, search_season_filter, ih,
      List.filter_cons]
    by_cases hc : s3.seasons.any (fun s => s.seasonNumber == x) = true
    · simp [hc]
    · simp [hc]

theorem setSeasonMonitored_numbers (n : Int) :
    ∀ l : List SeasonResource,
      (setSeasonMonitored l n).1.map (fun s => s.seasonNumber) =
        l.map (fun s => s.seasonNumber) := by
  intro l
  induction l with
  | nil => rfl
  | cons x t ih =>
    rw [setSeasonMonitored]
    split
    · rfl
    · dsimp only
      rw [List.map_cons, List.map_cons, ih]

theorem monitorLastSeason_numbers :
    ∀ l : List SeasonResource,
      (monitorLastSeason l).map (fun s => s.seasonNumber) =
        l.map (fun s => s.seasonNumber) := by
  intro l
  induction l with
  | nil => rfl
  | cons x t ih =>
    cases t with
    | nil => rfl
    | cons y ts =>
      rw [monitorLastSeason]
      simp only [List.isEmpty_cons, Bool.false_eq_true, if_false]
      rw [List.map_cons, List.map_cons, ih]

theorem monitor_seasons_inv (nums : List Int) :
    ∀ s : SeriesResource,
      ((monitor_seasons s nums).1.id = s.id ∧
        (monitor_seasons s nums).1.seasons.map (fun x => x.seasonNumber) =
          s.seasons.map (fun x => x.seasonNumber)) := by
  have hgen : ∀ (ns : List Int) (acc : SeriesResource × Bool),
      (ns.foldl (fun acc n =>
        let r := setSeasonMonitored acc.1.seasons n
        ({ acc.1 with seasons := r.1 }, acc.2 || r.2)) acc).1.id = acc.1.id ∧
      (ns.foldl (fun acc n =>
        let r := setSeasonMonitored acc.1.seasons n
        ({ acc.1 with seasons := r.1 }, acc.2 || r.2)) acc).1.seasons.map
          (fun x => x.seasonNumber) = acc.1.seasons.map (fun x => x.seasonNumber) := by
    intro ns
    induction ns with
    | nil => intro acc; exact ⟨rfl, rfl⟩
    | cons n t ih =>
      intro acc
      rw [List.foldl_cons]
      refine ⟨(ih _).1, ?_⟩
      rw [(ih _).2]
      exact setSeasonMonitored_numbers n acc.1.seasons
  intro s
  exact hgen nums (s, false)

theorem any_seasonNumber_congr (l l' : List SeasonResource)
    (h : l.map (fun s => s.seasonNumber) = l'.map (fun s => s.seasonNumber)) (sn : Int) :
    l.any (fun s => s.seasonNumber == sn) = l'.any (fun s => s.seasonNumber == sn) := by
  have h1 : ∀ m : List SeasonResource,
      m.any (fun s => s.seasonNumber == sn) =
        (m.map (fun s => s.seasonNumber)).any (fun x => x == sn) := by
    intro m
    induction m with
    | nil => rfl
    | cons a t ih => rw [List.map_cons, List.any_cons, List.any_cons, ih]
  rw [h1, h1, h]

theorem mem_insertSortedUnique (n : Int) :
    ∀ (l : List Int) (x : Int), x ∈ insertSortedUnique n l ↔ x = n ∨ x ∈ l := by
  intro l
  induction l with
  | nil => intro x; simp [insertSortedUnique]
  | cons y t ih =>
    intro x
    rw [insertSortedUnique]
    by_cases h1 : n < y
    · rw [if_pos h1]
      simp
    · rw [if_neg h1]
      by_cases h2 : (n == y) = true
      · rw [if_pos h2]
        have hny : n = y := by simpa using h2
        subst hny
        simp only [List.mem_cons]
        tauto
      · rw [if_neg h2]
        simp only [List.mem_cons, ih x]
        tauto

theorem pairwise_insertSortedUnique (n : Int) :
    ∀ l : List Int, l.Pairwise (· < ·) → (insertSortedUnique n l).Pairwise (· < ·) := by
  intro l
  induction l with
  | nil => intro _; simpa [insertSortedUnique] using List.pairwise_singleton _ n
  | cons y t ih =>
    intro hp
    rw [List.pairwise_cons] at hp
    rw [insertSortedUnique]
    by_cases h1 : n < y
    · rw [if_pos h1]
      refine List.pairwise_cons.mpr ⟨?_, List.pairwise_cons.mpr hp⟩
      intro z hz
      rcases List.mem_cons.mp hz with h | h
      · rw [h]; exact h1
      · exact lt_trans h1 (hp.1 z h)
    · rw [if_neg h1]
      by_cases h2 : (n == y) = true
      · rw [if_pos h2]
        exact List.pairwise_cons.mpr hp
      · rw [if_neg h2]
        refine List.pairwise_cons.mpr ⟨?_, ih hp.2⟩
        intro z hz
        rcases (mem_insertSortedUnique n t z).mp hz with h | h
        · subst h
          have : y ≠ z := fun he => h2 (by simp [he.symm])
          omega
        · exact hp.1 z h

theorem distinctSorted_pairwise (l : List Int) :
    (distinctSorted l).Pairwise (· < ·) := by
  have hgen : ∀ (ns : List Int) (acc : List Int), acc.Pairwise (· < ·) →
      (ns.foldl (fun acc n => insertSortedUnique n acc) acc).Pairwise (· < ·) := by
    intro ns
    induction ns with
    | nil => intro acc h; exact h
    | cons x t ih =>
      intro acc h
      rw [List.foldl_cons]
      exact ih _ (pairwise_insertSortedUnique x acc h)
  exact hgen l [] List.Pairwise.nil

theorem distinctSorted_nodup (l : List Int) : (distinctSorted l).Nodup :=
  (distinctSorted_pairwise l).imp (fun h => ne_of_lt h)

theorem search_season_fst_searchFails (a : List SeriesResource)
    (b : List EpisodeResource) (c : List TagResource) (f g : Int → Bool)
    (s : SeriesResource) (sn : Int) :
    (search_season ⟨a, b, c, g⟩ s sn).1 = (search_season ⟨a, b, c, f⟩ s sn).1 := by
  rw [search_season, search_season]
  cases s.seasons.find? (fun x => x.seasonNumber == sn) <;> rfl

theorem episodesClient_searchFails (a : List SeriesResource)
    (b : List EpisodeResource) (c : List TagResource) (f g : Int → Bool)
    (series : SeriesResource) (ss es : Int) (n : Nat) :
    episodesClient ⟨a, b, c, g⟩ series ss es n =
      episodesClient ⟨a, b, c, f⟩ series ss es n := rfl

theorem prefetchBody_searchFails (cfg : Config) (a : List SeriesResource)
    (b : List EpisodeResource) (c : List TagResource) (f g : Int → Bool)
    (series : SeriesResource) (tg : Option Tag) (np : NowPlaying) :
    prefetchBody cfg ⟨a, b, c, g⟩ series tg np =
      prefetchBody cfg ⟨a, b, c, f⟩ series tg np := by
  rw [prefetchBody, prefetchBody]
  simp only [search_season_fst_searchFails a b c f g,
    episodesClient_searchFails a b c f g]

theorem prefetch_searchFails (cfg : Config) (a : List SeriesResource)
    (b : List EpisodeResource) (c : List TagResource) (f g : Int → Bool)
    (now : Nat) (st : ActorState) (np : NowPlaying) :
    (prefetch cfg ⟨a, b, c, g⟩ now st np).1 = (prefetch cfg ⟨a, b, c, f⟩ now st np).1 := by
  rw [prefetch, prefetch]
  split
  · rfl
  · cases a.find? (seriesMatches np.series) with
    | none => rfl
    | some series =>
      dsimp only
      rw [prefetchBody_searchFails cfg a b c f g]

theorem baselineSeries_id (series : SeriesResource) (b : Bool) :
    (baselineSeries series b).id = series.id := by
  cases b <;> rfl

theorem baselineSeries_numbers (series : SeriesResource) (b : Bool) :
    (baselineSeries series b).seasons.map (fun x => x.seasonNumber) =
      series.seasons.map (fun x => x.seasonNumber) := by
  cases b
  · rfl
  · exact monitorLastSeason_numbers series.seasons

/-- A fresh event whose series is found, with no exclude tag configured,
lists the series once and then runs the body. -/
theorem prefetch_found (cfg : Config) (env : Env) (now : Nat) (np : NowPlaying)
    (series : SeriesResource)
    (hfind : env.seriesList.find? (seriesMatches np.series) = some series) :
    prefetch cfg env now ⟨[], none⟩ np =
      (PvrCall.listSeries :: prefetchBody cfg env series none np,
        ⟨(seenOnceEvent now np []).2, none⟩) := by
  rw [prefetch]
  simp only [hfind]
  rfl

/-- C8: in season mode, for every processed event the season-search
commands issued are exactly one per distinct season number occurring among
the fetched episodes that lack a file (restricted to seasons the series
actually has), in ascending order and without duplicates; and the trace is
the same whichever of the per-season search commands the remote side
fails, so one season's failure never suppresses the others. -/
theorem season_mode_search_spec (cfg : Config) (env : Env) (now : Nat)
    (np : NowPlaying) (series : SeriesResource)
    (hmode : cfg.requestSeasons = true)
    (hfind : env.seriesList.find? (seriesMatches np.series) = some series)
    (hseason : np.season ≠ 0) :
    ((prefetch cfg env now ⟨[], none⟩ np).1.filter isSeasonSearch =
      ((distinctSorted (((episode_window np.season np.episode cfg.prefetchNum
          env.episodesResp).filter (fun e => !e.hasFile)).map
          (fun e => e.seasonNumber))).filter
        (fun sn => series.seasons.any (fun s => s.seasonNumber == sn))).map
        (fun sn => PvrCall.seasonSearch series.id sn)) ∧
    (distinctSorted (((episode_window np.season np.episode cfg.prefetchNum
        env.episodesResp).filter (fun e => !e.hasFile)).map
        (fun e => e.seasonNumber))).Nodup ∧
    (∀ g, (prefetch cfg ⟨env.seriesList, env.episodesResp, env.tags, g⟩ now
        ⟨[], none⟩ np).1 = (prefetch cfg env now ⟨[], none⟩ np).1) := by
  refine ⟨?_, distinctSorted_nodup _, ?_⟩
  · rw [prefetch_found cfg env now np series hfind]
    rw [List.filter_cons]
    simp only [isSeasonSearch, Bool.false_eq_true, if_false]
    rw [prefetchBody]
    have hsz : (np.season == 0) = false := by simpa using hseason
    simp only [Option.map_none', Option.getD_none, episodesClient, hsz,
      Bool.false_eq_true, if_false, hmode, if_true]
    rw [List.nil_append, List.filter_append, List.filter_append]
    have hget : [PvrCall.getEpisodes series.id].filter isSeasonSearch = [] := rfl
    have hput : ∀ (c : Bool) (s : SeriesResource),
        (if c = true then [PvrCall.putSeries s] else []).filter isSeasonSearch = [] := by
      intro c s; cases c <;> rfl
    rw [hget, hput, List.nil_append, List.nil_append]
    rw [filter_seasonSearch_flatten]
    have hid : ((monitor_seasons
        (baselineSeries series
          (decide ((episode_window np.season np.episode cfg.prefetchNum
            env.episodesResp).length < cfg.prefetchNum)))
        (distinctSorted (((episode_window np.season np.episode cfg.prefetchNum
          env.episodesResp).filter (fun e => !e.hasFile)).map
          (fun e => e.seasonNumber)))).1).id = series.id := by
      rw [(monitor_seasons_inv _ _).1, baselineSeries_id]
    have hnums : ((monitor_seasons
        (baselineSeries series
          (decide ((episode_window np.season np.episode cfg.prefetchNum
            env.episodesResp).length < cfg.prefetchNum)))
        (distinctSorted (((episode_window np.season np.episode cfg.prefetchNum
          env.episodesResp).filter (fun e => !e.hasFile)).map
          (fun e => e.seasonNumber)))).1).seasons.map (fun x => x.seasonNumber) =
        series.seasons.map (fun x => x.seasonNumber) := by
      rw [(monitor_seasons_inv _ _).2, baselineSeries_numbers]
    have hany : ∀ sn : Int, ((monitor_seasons
        (baselineSeries series
          (decide ((episode_window np.season np.episode cfg.prefetchNum
            env.episodesResp).length < cfg.prefetchNum)))
        (distinctSorted (((episode_window np.season np.episode cfg.prefetchNum
          env.episodesResp).filter (fun e => !e.hasFile)).map
          (fun e => e.seasonNumber)))).1).seasons.any
          (fun s => s.seasonNumber == sn) =
        series.seasons.any (fun s => s.seasonNumber == sn) := by
      intro sn
      exact any_seasonNumber_congr _ _ hnums sn
    simp only [hid, hany]
  · intro g
    exact prefetch_searchFails cfg env.seriesList env.episodesResp env.tags
      env.searchFails g now ⟨[], none⟩ np

/-- Witness data: a series with two seasons known to Sonarr. -/
def seriesW : SeriesResource :=
  ⟨1234, some "TestShow", 5678, false, some NewItemMonitorTypes.All,
    [⟨1, false, none⟩, ⟨2, false, none⟩], none⟩

/-- Witness data: season 1 fully downloaded, season 2 announced with no
files. -/
def episodesW : List EpisodeResource :=
  [⟨17, 1, 7, true, false⟩, ⟨18, 1, 8, true, false⟩,
   ⟨21, 2, 1, false, false⟩, ⟨22, 2, 2, false, false⟩]

/-- Witness data: the remote environment for the season-mode scenario. -/
def envW : Env := ⟨[seriesW], episodesW, [], fun _ => false⟩

/-- Witness data: the viewer is on season 1, episode 7. -/
def npW : NowPlaying := ⟨Series.Tvdb 5678, 7, 1, someUser, none⟩

/-- Witness for `season_mode_search_spec` at the spec's season-mode
scenario: exactly one `SeasonSearch`, for season 2. -/
theorem season_mode_search_spec_witness :
    (prefetch ⟨2, true⟩ envW 0 ⟨[], none⟩ npW).1.filter isSeasonSearch =
      [PvrCall.seasonSearch 1234 2] := by
  have h := (season_mode_search_spec ⟨2, true⟩ envW 0 npW seriesW rfl rfl
    (by decide)).1
  rw [h]
  decide

/-! ## C10: episode mode always issues both batched calls -/

theorem episodesClient_count_zero (p : PvrCall → Bool) (env : Env)
    (series : SeriesResource) (ss es : Int) (n : Nat)
    (h : ∀ i : Int, p (PvrCall.getEpisodes i) = false) :
    countCalls p (episodesClient env series ss es n).1 = 0 := by
  rcases episodesClient_fst env series ss es n with h' | h' <;> rw [h']
  · rfl
  · rw [countCalls_single, h]
    rfl

/-- C10: in episode mode, every event that passes the dedup, lookup and
exclusion gates leads to exactly one `monitor_episodes` call and exactly
one `search_episodes` call, both carrying the ids of the fetched episodes
that lack a file; when every fetched episode already has a file the two
calls are still issued, with an empty id list. -/
theorem episode_mode_batch_spec (cfg : Config) (env : Env) (now : Nat)
    (np : NowPlaying) (series : SeriesResource)
    (hmode : cfg.requestSeasons = false)
    (hfind : env.seriesList.find? (seriesMatches np.series) = some series) :
    (countCalls isMonitorEpisodes (prefetch cfg env now ⟨[], none⟩ np).1 = 1) ∧
    (countCalls isEpisodeSearch (prefetch cfg env now ⟨[], none⟩ np).1 = 1) ∧
    (PvrCall.monitorEpisodes
        ((((episodesClient env series np.season np.episode cfg.prefetchNum).2).filter
          (fun e => !e.hasFile)).map (fun e => e.id)) ∈
      (prefetch cfg env now ⟨[], none⟩ np).1) ∧
    (PvrCall.episodeSearch
        ((((episodesClient env series np.season np.episode cfg.prefetchNum).2).filter
          (fun e => !e.hasFile)).map (fun e => e.id)) ∈
      (prefetch cfg env now ⟨[], none⟩ np).1) ∧
    ((∀ e ∈ (episodesClient env series np.season np.episode cfg.prefetchNum).2,
        e.hasFile = true) →
      (((episodesClient env series np.season np.episode cfg.prefetchNum).2).filter
        (fun e => !e.hasFile)).map (fun e => e.id) = []) := by
  rw [prefetch_found cfg env now np series hfind]
  rw [prefetchBody]
  simp only [Option.map_none', Option.getD_none, hmode, Bool.false_eq_true, if_false]
  refine ⟨?_, ?_, ?_, ?_, ?_⟩
  · rw [countCalls_cons]
    simp only [isMonitorEpisodes, Bool.false_eq_true, if_false, List.nil_append]
    rw [countCalls_append, countCalls_append,
      episodesClient_count_zero _ _ _ _ _ _ (fun i => rfl),
      countCalls_put_if _ _ _ rfl, countCalls_cons, countCalls_single]
    simp [isMonitorEpisodes, isEpisodeSearch]
  · rw [countCalls_cons]
    simp only [isEpisodeSearch, Bool.false_eq_true, if_false, List.nil_append]
    rw [countCalls_append, countCalls_append,
      episodesClient_count_zero _ _ _ _ _ _ (fun i => rfl),
      countCalls_put_if _ _ _ rfl, countCalls_cons, countCalls_single]
    simp [isMonitorEpisodes, isEpisodeSearch]
  · refine List.mem_cons.mpr (Or.inr ?_)
    rw [List.nil_append]
    refine List.mem_append.mpr (Or.inr ?_)
    exact List.mem_cons.mpr (Or.inl rfl)
  · refine List.mem_cons.mpr (Or.inr ?_)
    rw [List.nil_append]
    refine List.mem_append.mpr (Or.inr ?_)
    refine List.mem_cons.mpr (Or.inr ?_)
    exact List.mem_cons.mpr (Or.inl rfl)
  · intro h
    have hfil : ((episodesClient env series np.season np.episode
        cfg.prefetchNum).2).filter (fun e => !e.hasFile) = [] := by
      rw [List.filter_eq_nil_iff]
      intro e he
      simp [h e he]
    rw [hfil]
    rfl

/-- Witness data: the environment for the episode-mode scenario with every
episode already downloaded. -/
def envAllFiles : Env :=
  ⟨[seriesW], [⟨17, 1, 7, true, false⟩, ⟨18, 1, 8, true, false⟩], [], fun _ => false⟩

/-- Witness for `episode_mode_batch_spec`: with every fetched episode
already on disk, both calls are still issued and carry empty id lists. -/
theorem episode_mode_batch_spec_witness :
    PvrCall.monitorEpisodes [] ∈ (prefetch ⟨1, false⟩ envAllFiles 0 ⟨[], none⟩ npW).1 ∧
    PvrCall.episodeSearch [] ∈ (prefetch ⟨1, false⟩ envAllFiles 0 ⟨[], none⟩ npW).1 ∧
    countCalls isMonitorEpisodes (prefetch ⟨1, false⟩ envAllFiles 0 ⟨[], none⟩ npW).1
      = 1 := by
  have h := episode_mode_batch_spec ⟨1, false⟩ envAllFiles 0 npW seriesW rfl rfl
  have hids : ((((episodesClient envAllFiles seriesW npW.season npW.episode 1).2).filter
      (fun e => !e.hasFile)).map (fun e => e.id)) = [] := h.2.2.2.2 (by decide)
  refine ⟨?_, ?_, h.1⟩
  · have := h.2.2.1
    rw [hids] at this
    exact this
  · have := h.2.2.2.1
    rw [hids] at this
    exact this

/-! ## C5: series PUTs and actual changes -/

/-- Counterexample data: a series already fully in the target state —
monitored, its only season monitored, `monitor_new_items = All`. -/
def seriesC5 : SeriesResource :=
  ⟨1, some "A", 7, true, some NewItemMonitorTypes.All, [⟨1, true, none⟩], none⟩

/-- Counterexample data: the remote returns that series and no episodes. -/
def envC5 : Env := ⟨[seriesC5], [], [], fun _ => false⟩

/-- Counterexample data: the viewer plays season 1, episode 1. -/
def npC5 : NowPlaying := ⟨Series.Tvdb 7, 1, 1, someUser, none⟩

/-- C5 counterexample: with `prefetch_num = 1` and an empty catalogue the
shortfall path forces `series_modified = true` even though every field it
touches already has its target value, so a `put_series` carrying a record
identical to the fetched one is issued — the claim that `put_series` is
invoked only when some field actually changed is false on the code. -/
theorem put_series_counterexample :
    (envC5.seriesList.find? (seriesMatches npC5.series) = some seriesC5) ∧
    PvrCall.putSeries seriesC5 ∈ (prefetch ⟨1, false⟩ envC5 0 ⟨[], none⟩ npC5).1 := by
  constructor
  · rfl
  · decide

theorem monitored_update_eta (s : SeriesResource) (h : s.monitored = true) :
    { s with monitored := true } = s := by
  cases s
  simp_all

theorem season_monitored_eta (s : SeasonResource) (h : s.monitored = true) :
    { s with monitored := true } = s := by
  cases s
  simp_all

theorem setSeasonMonitored_all (n : Int) :
    ∀ l : List SeasonResource, (∀ x ∈ l, x.monitored = true) →
      setSeasonMonitored l n = (l, false) := by
  intro l
  induction l with
  | nil => intro _; rfl
  | cons x t ih =>
    intro h
    have hx : x.monitored = true := h x (List.mem_cons.mpr (Or.inl rfl))
    rw [setSeasonMonitored]
    split
    · rw [season_monitored_eta x hx, hx]
      rfl
    · rw [ih (fun y hy => h y (List.mem_cons.mpr (Or.inr hy)))]

theorem monitor_seasons_all (s : SeriesResource)
    (h : ∀ x ∈ s.seasons, x.monitored = true) :
    ∀ nums : List Int, monitor_seasons s nums = (s, false) := by
  have hgen : ∀ (ns : List Int) (acc : SeriesResource × Bool),
      (∀ x ∈ acc.1.seasons, x.monitored = true) →
      ns.foldl (fun acc n =>
        let r := setSeasonMonitored acc.1.seasons n
        ({ acc.1 with seasons := r.1 }, acc.2 || r.2)) acc = acc := by
    intro ns
    induction ns with
    | nil => intro acc _; rfl
    | cons n t ih =>
      intro acc hacc
      rw [List.foldl_cons]
      have hstep : (let r := setSeasonMonitored acc.1.seasons n
          (({ acc.1 with seasons := r.1 }, acc.2 || r.2) : SeriesResource × Bool)) =
          acc := by
        rw [setSeasonMonitored_all n acc.1.seasons hacc]
        simp
      rw [hstep]
      exact ih acc hacc
  intro nums
  exact hgen nums (s, false) h

theorem search_season_no_put (env : Env) (s : SeriesResource) (sn : Int)
    (hs : s.monitored = true) (hall : ∀ x ∈ s.seasons, x.monitored = true) :
    countCalls isPutSeries (search_season env s sn).1 = 0 := by
  rw [search_season]
  cases hf : s.seasons.find? (fun x => x.seasonNumber == sn) with
  | none => rfl
  | some season =>
    have hm : season.monitored = true := hall season (List.mem_of_find?_eq_some hf)
    dsimp only
    rw [hm, hs]
    simp only [Bool.not_true, Bool.or_self, if_true, Bool.false_eq_true, if_false]
    have h1 : countCalls isPutSeries
        (if (env.episodesResp.filter (fun e => e.seasonNumber == sn)).isEmpty = true
         then ([] : List PvrCall)
         else [PvrCall.monitorEpisodes
           ((env.episodesResp.filter (fun e => e.seasonNumber == sn)).map
             (fun e => e.id))]) = 0 := by
      split
      · rfl
      · simp [countCalls_single, isPutSeries]
    rw [countCalls_append, countCalls_append, countCalls_cons, h1]
    simp [countCalls_single, countCalls_nil, isPutSeries]

theorem flatten_no_put (env : Env) (s : SeriesResource)
    (hs : s.monitored = true) (hall : ∀ x ∈ s.seasons, x.monitored = true) :
    ∀ l : List Int,
      countCalls isPutSeries ((l.map (fun sn => (search_season env s sn).1)).flatten)
        = 0 := by
  intro l
  induction l with
  | nil => rfl
  | cons x t ih =>
    rw [List.map_cons, List.flatten_cons, countCalls_append,
      search_season_no_put env s x hs hall, ih]

/-- C5 (amended): the decision engine issues a series PUT when a monitoring
field actually changed OR unconditionally whenever fewer episodes than
requested were returned (the shortfall path sets the modified flag without
comparing values); consequently, when the series is already monitored with
every season monitored and the episode window returns the full requested
count, no `put_series` is issued anywhere in the cycle. -/
theorem put_series_no_change_spec (cfg : Config) (env : Env) (now : Nat)
    (np : NowPlaying) (series : SeriesResource)
    (hfind : env.seriesList.find? (seriesMatches np.series) = some series)
    (hmon : series.monitored = true)
    (hseason : np.season ≠ 0)
    (hfull : (episode_window np.season np.episode cfg.prefetchNum
      env.episodesResp).length = cfg.prefetchNum)
    (hall : ∀ x ∈ series.seasons, x.monitored = true) :
    countCalls isPutSeries (prefetch cfg env now ⟨[], none⟩ np).1 = 0 := by
  rw [prefetch_found cfg env now np series hfind]
  rw [countCalls_cons]
  simp only [isPutSeries, Bool.false_eq_true, if_false]
  rw [prefetchBody]
  have hsz : (np.season == 0) = false := by simpa using hseason
  simp only [Option.map_none', Option.getD_none, episodesClient, hsz,
    Bool.false_eq_true, if_false]
  have hsf : decide ((episode_window np.season np.episode cfg.prefetchNum
      env.episodesResp).length < cfg.prefetchNum) = false := by
    simp [hfull]
  rw [hsf]
  have hbase : baselineSeries series false = series := by
    rw [baselineSeries, if_neg (by simp)]
    exact monitored_update_eta series hmon
  rw [hbase, hmon]
  simp only [Bool.not_true, Bool.false_or, Bool.or_false]
  split
  · rw [monitor_seasons_all series hall]
    simp only [Bool.or_false, Bool.false_eq_true, if_false]
    simp only [List.nil_append, List.append_nil]
    rw [countCalls_append, flatten_no_put env series hmon hall _]
    simp [countCalls_single, isPutSeries]
  · simp only [Bool.false_eq_true, if_false]
    simp [countCalls_append, countCalls_cons, countCalls_single, countCalls_nil,
      isPutSeries]

/-- Witness data: a fully-monitored series for the no-change cycle. -/
def seriesMonW : SeriesResource :=
  ⟨3, some "B", 9, true, some NewItemMonitorTypes.All, [⟨1, true, none⟩], none⟩

/-- Witness data: a catalogue holding the next episode, so the window is
full. -/
def envMonW : Env :=
  ⟨[seriesMonW], [⟨4, 1, 1, true, false⟩, ⟨5, 1, 2, false, false⟩], [], fun _ => false⟩

/-- Witness for `put_series_no_change_spec`: a cycle that changes nothing
issues no series PUT. -/
theorem put_series_no_change_spec_witness :
    countCalls isPutSeries
      (prefetch ⟨1, true⟩ envMonW 0 ⟨[], none⟩
        ⟨Series.Tvdb 9, 1, 1, someUser, none⟩).1 = 0 :=
  put_series_no_change_spec ⟨1, true⟩ envMonW 0
    ⟨Series.Tvdb 9, 1, 1, someUser, none⟩ seriesMonW rfl rfl (by decide)
    (by decide) (by decide)

end Prefetcharr
